import Mathlib

/-!
Shallow embedding of `src/packages/cli-server-api/src/websocket/eventsSocketServer.ts`.

The file models:
- JavaScript values (`JVal`) as they appear in events and in the data decoded
  from inbound text: `undefined`, `null`, booleans, (integer) numbers, strings,
  arrays, plain objects, `Error` instances, and a `cyclic` marker standing for
  a structure `JSON.stringify` cannot encode (a cyclic object graph).
  Numbers are restricted to integers; floating point payloads are out of the
  embedding's scope.
- the codec: `serializeMessage` (with the `pretty-format` substitutions) and
  `parseMessage` on top of a model of `JSON.parse` / `JSON.stringify`;
- the broadcast dispatcher `broadCastEvent` and the facade `reportEvent`;
- the access filter `verifyClient`;
- the per-connection message handler `onmessage` and the connection
  lifecycle state machine (registry keyed by `client#<n>` ids).

Exceptions are modelled with `Except Unit`: `Except.error ()` is a thrown
JavaScript exception that the modelled code does not catch.
-/

namespace EventsSocket

/-- Model of a JavaScript runtime value as used by the events socket:
the shapes an event or a decoded inbound message can take. -/
inductive JVal where
  | undef : JVal
  | null : JVal
  | bool : Bool → JVal
  | num : Int → JVal
  | str : String → JVal
  | arr : List JVal → JVal
  | obj : List (String × JVal) → JVal
  | err : String → String → JVal
  | cyclic : JVal

mutual

/-- Structural equality of modelled values (the `===`/`Object.is` notion is
only ever applied to primitives by the source; on primitives this agrees). -/
def jeq : JVal → JVal → Bool
  | JVal.undef, JVal.undef => true
  | JVal.null, JVal.null => true
  | JVal.bool a, JVal.bool b => a == b
  | JVal.num a, JVal.num b => a == b
  | JVal.str a, JVal.str b => a == b
  | JVal.arr xs, JVal.arr ys => jeqL xs ys
  | JVal.obj fs, JVal.obj gs => jeqF fs gs
  | JVal.err n m, JVal.err p q => n == p && m == q
  | JVal.cyclic, JVal.cyclic => true
  | _, _ => false

def jeqL : List JVal → List JVal → Bool
  | [], [] => true
  | x :: xs, y :: ys => jeq x y && jeqL xs ys
  | _, _ => false

def jeqF : List (String × JVal) → List (String × JVal) → Bool
  | [], [] => true
  | (k, v) :: fs, (l, w) :: gs => k == l && (jeq v w && jeqF fs gs)
  | _, _ => false

end

mutual

theorem jeq_iff : ∀ (a b : JVal), jeq a b = true ↔ a = b
  | JVal.undef, b => by cases b <;> simp [jeq]
  | JVal.null, b => by cases b <;> simp [jeq]
  | JVal.bool a, b => by cases b <;> simp [jeq]
  | JVal.num a, b => by cases b <;> simp [jeq]
  | JVal.str a, b => by cases b <;> simp [jeq]
  | JVal.arr xs, b => by
      cases b <;> simp [jeq]
      exact jeqL_iff xs _
  | JVal.obj fs, b => by
      cases b <;> simp [jeq]
      exact jeqF_iff fs _
  | JVal.err n m, b => by cases b <;> simp [jeq]
  | JVal.cyclic, b => by cases b <;> simp [jeq]

theorem jeqL_iff : ∀ (a b : List JVal), jeqL a b = true ↔ a = b
  | [], b => by cases b <;> simp [jeqL]
  | x :: xs, [] => by simp [jeqL]
  | x :: xs, y :: ys => by
      simp only [jeqL, Bool.and_eq_true, List.cons.injEq]
      exact and_congr (jeq_iff x y) (jeqL_iff xs ys)

theorem jeqF_iff : ∀ (a b : List (String × JVal)), jeqF a b = true ↔ a = b
  | [], b => by cases b <;> simp [jeqF]
  | (k, v) :: fs, [] => by simp [jeqF]
  | (k, v) :: fs, (l, w) :: gs => by
      simp only [jeqF, Bool.and_eq_true, List.cons.injEq, Prod.mk.injEq,
        beq_iff_eq, jeq_iff v w, jeqF_iff fs gs]
      tauto

end

instance : DecidableEq JVal := fun a b =>
  decidable_of_iff (jeq a b = true) (jeq_iff a b)

/-- JavaScript truthiness of a value (`!v` negates this). `NaN` is not
modelled (numbers are integers). Objects, arrays and `Error`s are truthy. -/
def truthy : JVal → Bool
  | JVal.undef => false
  | JVal.null => false
  | JVal.bool b => b
  | JVal.num n => decide (n ≠ 0)
  | JVal.str s => decide (s ≠ "")
  | JVal.arr _ => true
  | JVal.obj _ => true
  | JVal.err _ _ => true
  | JVal.cyclic => true

/-- First binding of a key in an object's field list. -/
def lookupField : List (String × JVal) → String → Option JVal
  | [], _ => none
  | kv :: fs, k => if kv.1 = k then some kv.2 else lookupField fs k

/-- Property read `v.k`. On a non-object (including `null`/`undefined`, where
JavaScript would throw, a case the callers below never reach uncaught, and on
primitives, where JavaScript yields `undefined`) it is `undefined`. -/
def getField : JVal → String → JVal
  | JVal.obj fs, k => (lookupField fs k).getD JVal.undef
  | _, _ => JVal.undef

def hasField : List (String × JVal) → String → Bool
  | [], _ => false
  | kv :: fs, k => if kv.1 = k then true else hasField fs k

/-- Object spread with one overridden key, `\x7b...m, k: v\x7d`: a key already
present keeps its position and gets the new value, a fresh key is appended.
Only ever applied to objects by the code below. -/
def setField (m : JVal) (k : String) (v : JVal) : JVal :=
  match m with
  | JVal.obj fs =>
    if hasField fs k then
      JVal.obj (fs.map (fun kv => if kv.1 = k then (k, v) else kv))
    else
      JVal.obj (fs ++ [(k, v)])
  | w => w

/-- `v instanceof Error`. -/
def isErrorVal : JVal → Bool
  | JVal.err _ _ => true
  | _ => false

/-- Decimal digit character (argument below 10 in every use). -/
def digitCh : Nat → Char
  | 0 => '0'
  | 1 => '1'
  | 2 => '2'
  | 3 => '3'
  | 4 => '4'
  | 5 => '5'
  | 6 => '6'
  | 7 => '7'
  | 8 => '8'
  | _ => '9'

/-- Numeric value of a decimal digit character. -/
def digitVal (c : Char) : Nat := c.toNat - 48

/-- Decimal digits of a natural number, most significant first (fuel-based;
every call site supplies fuel above the argument). -/
def natDigits : Nat → Nat → List Char
  | 0, _ => []
  | fuel + 1, n =>
    if n < 10 then [digitCh n]
    else natDigits fuel (n / 10) ++ [digitCh (n % 10)]

/-- Decimal rendering of a natural number. -/
def natStr (n : Nat) : String := String.mk (natDigits (n + 1) n)

/-- Decimal rendering of an integer, as JavaScript prints integral numbers. -/
def intStr (n : Int) : String :=
  if n < 0 then "-" ++ natStr n.natAbs else natStr n.natAbs

/-- Escape of one character inside a double-quoted string literal, as both
`JSON.stringify` and the escaping pretty printer produce it (control
characters beyond tab/newline/carriage return are not modelled). -/
def escChar (c : Char) : List Char :=
  if c = '"' then ['\\', '"']
  else if c = '\\' then ['\\', '\\']
  else if c = '\n' then ['\\', 'n']
  else if c = '\t' then ['\\', 't']
  else if c = '\r' then ['\\', 'r']
  else [c]

/-- A raw text with its characters escaped (no surrounding quotes). -/
def escText (s : String) : String := String.mk (s.data.map escChar).flatten

/-- A double-quoted, escaped string literal. -/
def jsonQuote (s : String) : String :=
  String.mk ('"' :: ((s.data.map escChar).flatten ++ ['"']))

/-- Join a list of strings with a separator (semantics of `Array.join` /
comma-separated printing). -/
def joinSep (sep : String) : List String → String
  | [] => ""
  | [x] => x
  | x :: y :: xs => x ++ sep ++ joinSep sep (y :: xs)

/-- The opening curly brace character. -/
def braceO : Char := Char.ofNat 123

/-- The closing curly brace character. -/
def braceC : Char := Char.ofNat 125

def braceOS : String := String.mk [braceO]

def braceCS : String := String.mk [braceC]

/-- Modelled from the behaviour of the external `pretty-format` library under
the options the source passes (`escapeString: true`, `maxDepth: 3`,
`min: true`): a single-line textual rendering that stops descending below the
fixed depth. The `highlight` and `plugins: [ReactElement]` options only affect
colour codes and React elements, neither of which is modelled, so the error
branch and the `client_log` branch share this one rendering. -/
def prettyFormatAux : Nat → JVal → String
  | _, JVal.undef => "undefined"
  | _, JVal.null => "null"
  | _, JVal.bool b => cond b "true" "false"
  | _, JVal.num n => intStr n
  | _, JVal.str s => jsonQuote s
  | _, JVal.err name msg => "[" ++ escText name ++ ": " ++ escText msg ++ "]"
  | _, JVal.cyclic => "[Circular]"
  | 0, JVal.arr _ => "[Array]"
  | Nat.succ d, JVal.arr xs =>
    "[" ++ joinSep ", " (xs.map (fun x => prettyFormatAux d x)) ++ "]"
  | 0, JVal.obj _ => braceOS ++ "Object" ++ braceCS
  | Nat.succ d, JVal.obj fs =>
    braceOS ++
      joinSep ", " (fs.map (fun kv => escText kv.1 ++ ": " ++ prettyFormatAux d kv.2)) ++
      braceCS

/-- `prettyFormat(v, \x7bescapeString: true, highlight: true, maxDepth: 3, min: true\x7d)`. -/
def prettyFormat (v : JVal) : String := prettyFormatAux 3 v

mutual

/-- Model of `JSON.stringify`. `none` means the call throws (a `cyclic`
value was reached); `some none` means the result is the value `undefined`
(top-level `undefined`); `some (some s)` is the produced text. `Error`
instances stringify to an empty object (their fields are non-enumerable). -/
def jsonStringify : JVal → Option (Option String)
  | JVal.undef => some none
  | JVal.null => some (some "null")
  | JVal.bool b => some (some (cond b "true" "false"))
  | JVal.num n => some (some (intStr n))
  | JVal.str s => some (some (jsonQuote s))
  | JVal.err _ _ => some (some (braceOS ++ braceCS))
  | JVal.cyclic => none
  | JVal.arr xs =>
    match jsonElems xs with
    | none => none
    | some es => some (some ("[" ++ joinSep "," es ++ "]"))
  | JVal.obj fs =>
    match jsonMembers fs with
    | none => none
    | some ms => some (some (braceOS ++ joinSep "," ms ++ braceCS))

/-- Array elements under `JSON.stringify`: an element that would be
`undefined` is encoded as `null`; a throw propagates. -/
def jsonElems : List JVal → Option (List String)
  | [] => some []
  | x :: xs =>
    match jsonStringify x, jsonElems xs with
    | some sx, some rest => some (sx.getD "null" :: rest)
    | _, _ => none

/-- Object members under `JSON.stringify`: a member whose value would be
`undefined` is skipped; a throw propagates. -/
def jsonMembers : List (String × JVal) → Option (List String)
  | [] => some []
  | (k, v) :: fs =>
    match jsonStringify v, jsonMembers fs with
    | some (some sv), some rest => some ((jsonQuote k ++ ":" ++ sv) :: rest)
    | some none, some rest => some rest
    | _, _ => none

end

/-- `try \x7b return JSON.stringify(v) \x7d catch \x7b ... return null \x7d`,
with the falsy results `null` and `undefined` collapsed to `none`. -/
def stringifyCaught (v : JVal) : Option String :=
  match jsonStringify v with
  | some (some s) => some s
  | _ => none

/-- The per-element rewrite applied to `message.data` in the `client_log`
branch of `serializeMessage`: a string passes through, anything else is
pretty-printed. -/
def logItem (item : JVal) : JVal :=
  match item with
  | JVal.str s => JVal.str s
  | v => JVal.str (prettyFormat v)

/-- `serializeMessage` from the source. `Except.error ()` is the uncaught
`TypeError` thrown by `message.data.map(...)` when `data` is not an array;
`Except.ok none` is a falsy return (`null` after a caught stringify throw, or
`undefined` from stringifying `undefined`); `Except.ok (some s)` is text. -/
def serializeMessage (message : JVal) : Except Unit (Option String) :=
  if truthy message && truthy (getField message "error") &&
      isErrorVal (getField message "error") then
    Except.ok (stringifyCaught
      (setField message "error"
        (JVal.str (prettyFormat (getField message "error")))))
  else if truthy message && jeq (getField message "type") (JVal.str "client_log") then
    match getField message "data" with
    | JVal.arr items =>
      Except.ok (stringifyCaught
        (setField message "data" (JVal.arr (items.map logItem))))
    | _ => Except.error ()
  else
    Except.ok (stringifyCaught message)

/-- The fixed protocol version constant. -/
def PROTOCOL_VERSION : Int := 2

/-- Drop leading JSON whitespace. -/
def skipWs : List Char → List Char
  | c :: cs =>
    if c = ' ' ∨ c = '\n' ∨ c = '\t' ∨ c = '\r' then skipWs cs else c :: cs
  | [] => []

def isDigitCh (c : Char) : Bool := 48 ≤ c.toNat && c.toNat ≤ 57

/-- Accumulate a run of decimal digits. -/
def takeDigits : List Char → Nat → Nat × List Char
  | c :: cs, acc =>
    if isDigitCh c then takeDigits cs (acc * 10 + digitVal c) else (acc, c :: cs)
  | [], acc => (acc, [])

/-- Decode the character after a backslash in a JSON string literal
(`\b`, `\f` and `\uXXXX` are not modelled). The quote, backslash and slash
escapes decode to themselves. -/
def escDecode (e : Char) : Option Char :=
  if e = '"' ∨ e = '\\' ∨ e = '/' then some e
  else if e = 'n' then some '\n'
  else if e = 't' then some '\t'
  else if e = 'r' then some '\r'
  else none

/-- Body of a JSON string literal after the opening quote: the decoded
characters and the input after the closing quote. -/
def parseStringBody : List Char → Option (List Char × List Char)
  | [] => none
  | '"' :: rest => some ([], rest)
  | '\\' :: e :: rest =>
    match escDecode e with
    | none => none
    | some c => (parseStringBody rest).map (fun p => (c :: p.1, p.2))
  | c :: rest => (parseStringBody rest).map (fun p => (c :: p.1, p.2))

/-- Strip an expected literal character sequence off the input, or fail. -/
def stripLit : List Char → List Char → Option (List Char)
  | [], cs => some cs
  | k :: ks, c :: cs => if c = k then stripLit ks cs else none
  | _ :: _, [] => none

/-- Recognize one of the JSON keyword literals (`null`, `true`, `false`). -/
def keywordLit (w : String) (v : JVal) (cs : List Char) :
    Option (JVal × List Char) :=
  (stripLit w.data cs).map (fun rest => (v, rest))

mutual

/-- Model of `JSON.parse`, value level: `none` is a thrown `SyntaxError`.
Numbers are restricted to (optionally signed) integer literals; fraction and
exponent parts are outside the embedding's scope. -/
def parseValue : Nat → List Char → Option (JVal × List Char)
  | 0, _ => none
  | fuel + 1, cs =>
    let cs1 := skipWs cs
    keywordLit "null" JVal.null cs1 <|>
    keywordLit "true" (JVal.bool true) cs1 <|>
    keywordLit "false" (JVal.bool false) cs1 <|>
    (match cs1 with
     | '"' :: rest =>
       (parseStringBody rest).map (fun p => (JVal.str (String.mk p.1), p.2))
     | '-' :: c :: rest =>
       if isDigitCh c then
         match takeDigits (c :: rest) 0 with
         | (n, rest2) => some (JVal.num (-(n : Int)), rest2)
       else none
     | '[' :: rest =>
       (match skipWs rest with
        | ']' :: rest2 => some (JVal.arr [], rest2)
        | _ => (parseElems fuel rest).map (fun p => (JVal.arr p.1, p.2)))
     | c :: rest =>
       if isDigitCh c then
         match takeDigits (c :: rest) 0 with
         | (n, rest2) => some (JVal.num (n : Int), rest2)
       else if c = braceO then
         match skipWs rest with
         | c2 :: rest2 =>
           if c2 = braceC then some (JVal.obj [], rest2)
           else (parseMembers fuel (c2 :: rest2)).map (fun p => (JVal.obj p.1, p.2))
         | [] => none
       else none
     | [] => none)

/-- Comma-separated array elements up to the closing bracket. -/
def parseElems : Nat → List Char → Option (List JVal × List Char)
  | 0, _ => none
  | fuel + 1, cs =>
    match parseValue fuel cs with
    | none => none
    | some (v, rest) =>
      match skipWs rest with
      | ',' :: rest2 =>
        (parseElems fuel rest2).map (fun p => (v :: p.1, p.2))
      | ']' :: rest2 => some ([v], rest2)
      | _ => none

/-- Comma-separated `"key": value` members up to the closing brace. -/
def parseMembers : Nat → List Char → Option (List (String × JVal) × List Char)
  | 0, _ => none
  | fuel + 1, cs =>
    match skipWs cs with
    | '"' :: rest =>
      match parseStringBody rest with
      | none => none
      | some (kchars, rest1) =>
        match skipWs rest1 with
        | ':' :: rest2 =>
          match parseValue fuel rest2 with
          | none => none
          | some (v, rest3) =>
            match skipWs rest3 with
            | ',' :: rest4 =>
              (parseMembers fuel rest4).map
                (fun p => ((String.mk kchars, v) :: p.1, p.2))
            | c :: rest4 =>
              if c = braceC then some ([(String.mk kchars, v)], rest4) else none
            | [] => none
        | _ => none
    | _ => none

end

/-- Model of `JSON.parse` on a whole input string; `none` is a thrown
`SyntaxError` (trailing garbage included). -/
def jsonParse (s : String) : Option JVal :=
  match parseValue (s.length + 1) s.data with
  | some (v, rest) => if skipWs rest = [] then some v else none
  | none => none

/-- `parseMessage` from the source: decode, then accept exactly when the
decoded value's `version` field strictly equals `PROTOCOL_VERSION`. A decode
throw is caught (logged) and yields `undefined`; the property read
`message.version` on a decoded `null` would also throw inside the same
`try`, and `getField` sending it to `undefined ≠ 2` lands on the same
`undefined` result. -/
def parseMessage (data : String) : Option JVal :=
  match jsonParse data with
  | none => none
  | some m =>
    if jeq (getField m "version") (JVal.num PROTOCOL_VERSION) then some m
    else none

/-- A client websocket handle as the dispatcher sees it: the only observable
behaviour the source exercises is whether `ws.send` throws. -/
structure WsConn where
  sendFails : Bool
deriving DecidableEq, Repr

/-- The connection registry: the `clients` map, insertion-ordered
(`Map` iteration order), keyed by the assigned `client#<n>` id. -/
abbrev Registry := List (String × WsConn)

/-- One `ws.send(serialized)` attempt recorded during a broadcast:
the target connection, the text handed to `send`, and whether the call
returned normally (`delivered = false` when `send` threw and the dispatcher
caught and logged it). -/
structure SendAttempt where
  conn : WsConn
  payload : String
  delivered : Bool
deriving DecidableEq, Repr

/-- `broadCastEvent` from the source. Returns the ordered list of send
attempts together with the registry as it stands afterwards (the dispatcher
never mutates the registry, which the returned copy makes checkable).
`Except.error ()` is the uncaught exception out of `serializeMessage`. -/
def broadCastEvent (clients : Registry) (message : JVal) :
    Except Unit (List SendAttempt × Registry) :=
  if clients.length = 0 then Except.ok ([], clients)
  else
    match serializeMessage message with
    | Except.error e => Except.error e
    | Except.ok none => Except.ok ([], clients)
    | Except.ok (some serialized) =>
      if serialized = "" then Except.ok ([], clients)
      else
        Except.ok
          (clients.map (fun kv =>
            { conn := kv.2, payload := serialized, delivered := !kv.2.sendFails }),
           clients)

/-- The facade returned by `attachToServer`: `reportEvent` calls straight
into `broadCastEvent`. -/
def reportEvent (clients : Registry) (event : JVal) :
    Except Unit (List SendAttempt × Registry) :=
  broadCastEvent clients event

/-- Model of `String.prototype.startsWith`. -/
def strStartsWith (s p : String) : Bool := p.data.isPrefixOf s.data

/-- `verifyClient` from the source: `!origin || origin.startsWith(...)`.
`none` is an absent Origin header; an empty header string is falsy. -/
def verifyClient (origin : Option String) : Bool :=
  match origin with
  | none => true
  | some s =>
    s = "" || strStartsWith s "http://localhost:" || strStartsWith s "file:"

/-- Observable outcome of one inbound message on an open connection. -/
structure InboundResult where
  /-- The `messageSocket.broadcast(command, params)` invocations, in order. -/
  calls : List (JVal × JVal)
  /-- Whether an exception escaped the handler (which would tear down the
  connection); the handler catches the relay's failures, so the theorems
  show this is always `false`. -/
  uncaughtError : Bool
deriving DecidableEq

/-- The `clientWs.onmessage` handler. `bcast` is the outbound channel's
`broadcast`, which may throw (`Except.error ()`); its failure is caught and
logged. A message that fails `parseMessage`, or whose `type` is not
`"command"`, is dropped (logged). -/
def onmessage (bcast : JVal → JVal → Except Unit Unit) (data : String) :
    InboundResult :=
  match parseMessage data with
  | none => { calls := [], uncaughtError := false }
  | some message =>
    if jeq (getField message "type") (JVal.str "command") then
      match bcast (getField message "command") (getField message "params") with
      | Except.ok _ => { calls := [(getField message "command", getField message "params")],
                         uncaughtError := false }
      | Except.error _ => { calls := [(getField message "command", getField message "params")],
                            uncaughtError := false }
    else
      { calls := [], uncaughtError := false }

/-- The id string for the `n`-th connection: `client#<n>`. -/
def mkId (n : Nat) : String := "client#" ++ natStr n

/-- `Map.set`: an existing key is overwritten in place, a fresh key is
appended (insertion order). -/
def mapSet (m : Registry) (k : String) (v : WsConn) : Registry :=
  if m.any (fun kv => kv.1 = k) then
    m.map (fun kv => if kv.1 = k then (k, v) else kv)
  else m ++ [(k, v)]

/-- `Map.delete`: drop the binding if present; a no-op otherwise. -/
def mapDelete (m : Registry) (k : String) : Registry :=
  m.filter (fun kv => kv.1 ≠ k)

/-- Server-side connection-lifecycle state: the `clients` map and the
`nextClientId` counter captured by the `connection` handler. -/
structure SState where
  clients : Registry
  nextClientId : Nat

/-- The transport signals the lifecycle code reacts to: a new accepted
connection, and the close/error signals of some connection (both close and
error are wired to the same deletion handler). -/
inductive WsEvent where
  | connection : WsConn → WsEvent
  | closeSignal : String → WsEvent
  | errorSignal : String → WsEvent

/-- One lifecycle transition: `connection` assigns
`client#<nextClientId++>` and stores the socket; `close`/`error` delete the
captured id (idempotently). -/
def stepServer (st : SState) : WsEvent → SState
  | WsEvent.connection ws =>
    { clients := mapSet st.clients (mkId st.nextClientId) ws,
      nextClientId := st.nextClientId + 1 }
  | WsEvent.closeSignal id => { st with clients := mapDelete st.clients id }
  | WsEvent.errorSignal id => { st with clients := mapDelete st.clients id }

/-- State right after `attachToServer`: empty registry, counter at `0`. -/
def initState : SState := { clients := [], nextClientId := 0 }

/-- The lifecycle state after a sequence of transport signals. -/
def runServer (evs : List WsEvent) : SState := evs.foldl stepServer initState

/-- The ids handed out along a signal sequence, in assignment order,
starting from counter value `n`. -/
def assignedIdsFrom : Nat → List WsEvent → List String
  | _, [] => []
  | n, WsEvent.connection _ :: evs => mkId n :: assignedIdsFrom (n + 1) evs
  | n, WsEvent.closeSignal _ :: evs => assignedIdsFrom n evs
  | n, WsEvent.errorSignal _ :: evs => assignedIdsFrom n evs

/-- The ids handed out over the whole process lifetime. -/
def assignedIds (evs : List WsEvent) : List String := assignedIdsFrom 0 evs

/-- Number of accepted connections in a signal sequence. -/
def connCount : List WsEvent → Nat
  | [] => 0
  | WsEvent.connection _ :: evs => connCount evs + 1
  | WsEvent.closeSignal _ :: evs => connCount evs
  | WsEvent.errorSignal _ :: evs => connCount evs

/-- `typeof v === "string"`. -/
def isStrVal : JVal → Bool
  | JVal.str _ => true
  | _ => false

instance {ε α : Type} [DecidableEq ε] [DecidableEq α] : DecidableEq (Except ε α) :=
  fun x y =>
    match x, y with
    | Except.ok a, Except.ok b =>
      if h : a = b then isTrue (by rw [h])
      else isFalse (fun he => h (Except.ok.inj he))
    | Except.error a, Except.error b =>
      if h : a = b then isTrue (by rw [h])
      else isFalse (fun he => h (Except.error.inj he))
    | Except.ok _, Except.error _ => isFalse (fun he => Except.noConfusion he)
    | Except.error _, Except.ok _ => isFalse (fun he => Except.noConfusion he)

/-! ### Helper lemmas -/

/-- A string is single-line: none of its characters is a newline. -/
def noNL (s : String) : Prop := ∀ c ∈ s.data, c ≠ '\n'

theorem strExt {a b : String} (h : a.data = b.data) : a = b := by
  cases a; cases b; exact congrArg String.mk h

theorem ne_empty_of_data {s : String} (h : s.data ≠ []) : s ≠ "" :=
  fun he => h (by subst he; rfl)

theorem noNL_append {a b : String} (ha : noNL a) (hb : noNL b) : noNL (a ++ b) := by
  intro c hc
  rw [String.data_append] at hc
  rcases List.mem_append.mp hc with h | h
  · exact ha c h
  · exact hb c h

theorem noNL_lit {s : String} (h : ∀ c ∈ s.data, (c = '\n') = False) : noNL s :=
  fun c hc => by simpa using (h c hc)

theorem digitVal_digitCh {d : Nat} (h : d < 10) : digitVal (digitCh d) = d := by
  interval_cases d <;> rfl

theorem digitCh_ne_nl {d : Nat} (h : d < 10) : digitCh d ≠ '\n' := by
  interval_cases d <;> decide

/-- Value of a digit string read left to right. -/
def digitsVal (l : List Char) : Nat := l.foldl (fun a c => a * 10 + digitVal c) 0

theorem natDigits_spec : ∀ fuel n, n < fuel →
    digitsVal (natDigits fuel n) = n ∧ natDigits fuel n ≠ [] ∧
      ∀ c ∈ natDigits fuel n, ∃ d, d < 10 ∧ c = digitCh d := by
  intro fuel
  induction fuel with
  | zero => intro n h; omega
  | succ f ih =>
    intro n h
    by_cases h10 : n < 10
    · refine ⟨?_, by simp [natDigits, h10], ?_⟩
      · simp [natDigits, h10, digitsVal, digitVal_digitCh h10]
      · intro c hc
        simp only [natDigits, if_pos h10, List.mem_singleton] at hc
        exact ⟨n, h10, hc⟩
    · have hdiv : n / 10 < n := Nat.div_lt_self (by omega) (by omega)
      have hrec := ih (n / 10) (by omega)
      have hmod : n % 10 < 10 := Nat.mod_lt _ (by omega)
      constructor
      · simp only [natDigits, if_neg h10, digitsVal, List.foldl_append]
        have : digitsVal (natDigits f (n / 10)) = n / 10 := hrec.1
        simp only [digitsVal] at this
        rw [this]
        simp [List.foldl, digitVal_digitCh hmod]
        omega
      · constructor
        · simp [natDigits, if_neg h10]
        · intro c hc
          simp only [natDigits, if_neg h10, List.mem_append, List.mem_singleton] at hc
          rcases hc with hc | hc
          · exact hrec.2.2 c hc
          · exact ⟨n % 10, hmod, hc⟩

theorem digitsVal_natStr (n : Nat) : digitsVal (natStr n).data = n :=
  (natDigits_spec (n + 1) n (by omega)).1

theorem natStr_ne_empty (n : Nat) : natStr n ≠ "" :=
  ne_empty_of_data (natDigits_spec (n + 1) n (by omega)).2.1

theorem natStr_inj {a b : Nat} (h : natStr a = natStr b) : a = b := by
  have := congrArg String.data h
  have ha := digitsVal_natStr a
  have hb := digitsVal_natStr b
  rw [this] at ha
  omega

theorem natStr_noNL (n : Nat) : noNL (natStr n) := by
  intro c hc
  rcases (natDigits_spec (n + 1) n (by omega)).2.2 c hc with ⟨d, hd, rfl⟩
  exact digitCh_ne_nl hd

theorem mkId_inj {a b : Nat} (h : mkId a = mkId b) : a = b := by
  apply natStr_inj
  apply strExt
  have hd := congrArg String.data h
  unfold mkId at hd
  rw [String.data_append, String.data_append] at hd
  exact List.append_cancel_left hd

/-- Single-line check for concrete strings, dischargeable by `decide`. -/
theorem noNL_of_all (s : String) (h : s.data.all (fun c => !(c == '\n')) = true) :
    noNL s := by
  intro c hc
  have := List.all_eq_true.mp h c hc
  simpa using this

theorem intStr_noNL (n : Int) : noNL (intStr n) := by
  unfold intStr
  split
  · exact noNL_append (noNL_of_all "-" (by decide)) (natStr_noNL _)
  · exact natStr_noNL _

theorem intStr_ne_empty (n : Int) : intStr n ≠ "" := by
  unfold intStr
  split
  · apply ne_empty_of_data
    rw [String.data_append]
    simp
  · exact natStr_ne_empty _

theorem escChar_ne_nl (c x : Char) (hx : x ∈ escChar c) : x ≠ '\n' := by
  unfold escChar at hx
  repeat' split at hx
  all_goals simp only [List.mem_cons, List.mem_singleton, List.not_mem_nil, or_false] at hx
  all_goals first
    | (rcases hx with rfl | rfl <;> decide)
    | (subst hx; assumption)

theorem flatten_escChar_ne_nl (l : List Char) :
    ∀ c ∈ (l.map escChar).flatten, c ≠ '\n' := by
  intro c hc
  rcases List.mem_flatten.mp hc with ⟨xs, hxs, hcx⟩
  rcases List.mem_map.mp hxs with ⟨y, _, rfl⟩
  exact escChar_ne_nl y c hcx

theorem escText_noNL (s : String) : noNL (escText s) := by
  intro c hc
  exact flatten_escChar_ne_nl s.data c hc

theorem jsonQuote_noNL (s : String) : noNL (jsonQuote s) := by
  intro c hc
  have hc' : c ∈ '"' :: ((s.data.map escChar).flatten ++ ['"']) := hc
  rcases List.mem_cons.mp hc' with rfl | hc2
  · decide
  · rcases List.mem_append.mp hc2 with h | h
    · exact flatten_escChar_ne_nl s.data c h
    · simp only [List.mem_singleton] at h
      subst h
      decide

theorem jsonQuote_ne_empty (s : String) : jsonQuote s ≠ "" := by
  apply ne_empty_of_data
  show ('"' :: _) ≠ []
  simp

theorem joinSep_noNL {sep : String} (hsep : noNL sep) :
    ∀ l : List String, (∀ s ∈ l, noNL s) → noNL (joinSep sep l)
  | [], _ => by intro c hc; simp [joinSep, String.data] at hc
  | [x], h => by
    simpa [joinSep] using h x (by simp)
  | x :: y :: xs, h => by
    simp only [joinSep]
    exact noNL_append (noNL_append (h x (by simp)) hsep)
      (joinSep_noNL hsep (y :: xs) (fun s hs => h s (List.mem_cons_of_mem x hs)))

theorem braceOS_noNL : noNL braceOS := noNL_of_all _ (by decide)

theorem braceCS_noNL : noNL braceCS := noNL_of_all _ (by decide)

theorem prettyFormatAux_noNL : ∀ (d : Nat) (v : JVal), noNL (prettyFormatAux d v) := by
  intro d
  induction d with
  | zero =>
    intro v
    cases v with
    | undef => exact noNL_of_all "undefined" (by decide)
    | null => exact noNL_of_all "null" (by decide)
    | bool b =>
      cases b
      · exact noNL_of_all "false" (by decide)
      · exact noNL_of_all "true" (by decide)
    | num n => exact intStr_noNL n
    | str s => exact jsonQuote_noNL s
    | err name msg =>
      exact noNL_append (noNL_append (noNL_append (noNL_append
        (noNL_of_all "[" (by decide)) (escText_noNL name))
        (noNL_of_all ": " (by decide))) (escText_noNL msg))
        (noNL_of_all "]" (by decide))
    | cyclic => exact noNL_of_all "[Circular]" (by decide)
    | arr xs => exact noNL_of_all "[Array]" (by decide)
    | obj fs =>
      exact noNL_append (noNL_append braceOS_noNL (noNL_of_all "Object" (by decide)))
        braceCS_noNL
  | succ d ih =>
    intro v
    cases v with
    | undef => exact noNL_of_all "undefined" (by decide)
    | null => exact noNL_of_all "null" (by decide)
    | bool b =>
      cases b
      · exact noNL_of_all "false" (by decide)
      · exact noNL_of_all "true" (by decide)
    | num n => exact intStr_noNL n
    | str s => exact jsonQuote_noNL s
    | err name msg =>
      exact noNL_append (noNL_append (noNL_append (noNL_append
        (noNL_of_all "[" (by decide)) (escText_noNL name))
        (noNL_of_all ": " (by decide))) (escText_noNL msg))
        (noNL_of_all "]" (by decide))
    | cyclic => exact noNL_of_all "[Circular]" (by decide)
    | arr xs =>
      refine noNL_append (noNL_append (noNL_of_all "[" (by decide)) ?_)
        (noNL_of_all "]" (by decide))
      refine joinSep_noNL (noNL_of_all ", " (by decide)) _ ?_
      intro s hs
      rcases List.mem_map.mp hs with ⟨x, _, rfl⟩
      exact ih x
    | obj fs =>
      refine noNL_append (noNL_append braceOS_noNL ?_) braceCS_noNL
      refine joinSep_noNL (noNL_of_all ", " (by decide)) _ ?_
      intro s hs
      rcases List.mem_map.mp hs with ⟨kv, _, rfl⟩
      exact noNL_append (noNL_append (escText_noNL kv.1)
        (noNL_of_all ": " (by decide)))
        (ih kv.2)

theorem prettyFormat_noNL (v : JVal) : noNL (prettyFormat v) := prettyFormatAux_noNL 3 v

theorem ne_empty_right {a b : String} (hb : b ≠ "") : a ++ b ≠ "" := by
  apply ne_empty_of_data
  rw [String.data_append]
  intro h
  exact hb (strExt (List.append_eq_nil.mp h).2)

theorem braceCS_ne_empty : braceCS ≠ "" :=
  ne_empty_of_data (fun h => List.noConfusion h)

theorem jsonStringify_ne_empty : ∀ (v : JVal) (s : String),
    jsonStringify v = some (some s) → s ≠ "" := by
  intro v s h
  cases v with
  | undef => simp [jsonStringify] at h
  | null =>
    simp [jsonStringify] at h
    subst h
    decide
  | bool b =>
    cases b <;> simp [jsonStringify] at h <;> subst h <;> decide
  | num n =>
    simp [jsonStringify] at h
    subst h
    exact intStr_ne_empty n
  | str t =>
    simp [jsonStringify] at h
    subst h
    exact jsonQuote_ne_empty t
  | err a b =>
    simp [jsonStringify] at h
    subst h
    exact ne_empty_right braceCS_ne_empty
  | cyclic => simp [jsonStringify] at h
  | arr xs =>
    rw [jsonStringify] at h
    rcases hE : jsonElems xs with _ | es <;> rw [hE] at h
    · simp at h
    · simp at h
      subst h
      exact ne_empty_right (by decide)
  | obj fs =>
    rw [jsonStringify] at h
    rcases hM : jsonMembers fs with _ | ms <;> rw [hM] at h
    · simp at h
    · simp at h
      subst h
      exact ne_empty_right braceCS_ne_empty

theorem stringifyCaught_ne_empty {v : JVal} {s : String}
    (h : stringifyCaught v = some s) : s ≠ "" := by
  unfold stringifyCaught at h
  rcases hv : jsonStringify v with _ | o <;> rw [hv] at h
  · simp at h
  · rcases o with _ | t
    · simp at h
    · simp at h
      subst h
      exact jsonStringify_ne_empty v _ hv

theorem serializeMessage_ne_empty {m : JVal} {s : String}
    (h : serializeMessage m = Except.ok (some s)) : s ≠ "" := by
  unfold serializeMessage at h
  split at h
  · exact stringifyCaught_ne_empty (Except.ok.inj h)
  · split at h
    · split at h
      · exact stringifyCaught_ne_empty (Except.ok.inj h)
      · exact Except.noConfusion h
    · exact stringifyCaught_ne_empty (Except.ok.inj h)

theorem isError_truthy {v : JVal} (h : isErrorVal v = true) : truthy v = true := by
  cases v <;> simp [isErrorVal] at h <;> rfl

theorem isError_obj {m : JVal} {k : String}
    (h : isErrorVal (getField m k) = true) : truthy m = true := by
  cases m <;> simp [getField, isErrorVal] at h <;> rfl

theorem obj_of_getField {m : JVal} {k : String} {v : JVal}
    (h : getField m k = v) (hv : v ≠ JVal.undef) : ∃ fs, m = JVal.obj fs := by
  cases m with
  | obj fs => exact ⟨fs, rfl⟩
  | _ =>
    exfalso
    apply hv
    rw [← h]
    rfl

/-- The error-shaped branch of `serializeMessage`. -/
theorem serializeMessage_error_branch {m : JVal}
    (h : isErrorVal (getField m "error") = true) :
    serializeMessage m =
      Except.ok (stringifyCaught
        (setField m "error"
          (JVal.str (prettyFormat (getField m "error"))))) := by
  unfold serializeMessage
  rw [isError_obj h, isError_truthy h, h]
  rfl

/-- The `client_log` branch of `serializeMessage` when `data` is an array. -/
theorem serializeMessage_client_log_branch {m : JVal} {items : List JVal}
    (herr : isErrorVal (getField m "error") = false)
    (htype : getField m "type" = JVal.str "client_log")
    (hdata : getField m "data" = JVal.arr items) :
    serializeMessage m =
      Except.ok (stringifyCaught
        (setField m "data" (JVal.arr (items.map logItem)))) := by
  have hm : truthy m = true := by
    rcases obj_of_getField htype (by simp) with ⟨fs, rfl⟩
    rfl
  unfold serializeMessage
  rw [herr, htype, hdata, hm]
  simp [jeq]

/-- The `client_log` branch of `serializeMessage` when `data` is not an
array: `message.data.map` throws. -/
theorem serializeMessage_client_log_throw {m : JVal}
    (herr : isErrorVal (getField m "error") = false)
    (htype : getField m "type" = JVal.str "client_log")
    (hdata : ∀ items, getField m "data" ≠ JVal.arr items) :
    serializeMessage m = Except.error () := by
  have hm : truthy m = true := by
    rcases obj_of_getField htype (by simp) with ⟨fs, rfl⟩
    rfl
  unfold serializeMessage
  rw [herr, htype, hm]
  simp only [Bool.and_false, Bool.false_eq_true, if_false]
  simp [jeq]

/-- Fan-out on a successful serialization: one attempt per registered
client, in registry order, all with the same payload; registry unchanged. -/
theorem broadCastEvent_ok_some (clients : Registry) {m : JVal} {s : String}
    (h : serializeMessage m = Except.ok (some s)) :
    broadCastEvent clients m =
      Except.ok (clients.map (fun kv =>
        { conn := kv.2, payload := s, delivered := !kv.2.sendFails }), clients) := by
  unfold broadCastEvent
  rcases clients with _ | ⟨kv, rest⟩
  · rfl
  · rw [h]
    simp [serializeMessage_ne_empty h]

theorem broadCastEvent_empty (m : JVal) : broadCastEvent [] m = Except.ok ([], []) := rfl

theorem broadCastEvent_rejected (clients : Registry) {m : JVal}
    (h : serializeMessage m = Except.ok none) :
    broadCastEvent clients m = Except.ok ([], clients) := by
  unfold broadCastEvent
  rcases clients with _ | ⟨kv, rest⟩
  · rfl
  · rw [h]
    simp

theorem broadCastEvent_throw (clients : Registry) {m : JVal}
    (h : serializeMessage m = Except.error ()) (hc : clients ≠ []) :
    broadCastEvent clients m = Except.error () := by
  unfold broadCastEvent
  rcases clients with _ | ⟨kv, rest⟩
  · exact absurd rfl hc
  · rw [h]
    simp

/-- Invariant of the lifecycle state machine: registry keys are pairwise
distinct, and every key is `client#<n>` for some `n` below the counter. -/
def RegInv (st : SState) : Prop :=
  (st.clients.map Prod.fst).Nodup ∧
    ∀ kv ∈ st.clients, ∃ n, n < st.nextClientId ∧ kv.1 = mkId n

theorem regInv_init : RegInv initState := by
  constructor
  · exact List.nodup_nil
  · intro kv hkv
    exact absurd hkv (List.not_mem_nil kv)

theorem regInv_step (st : SState) (ev : WsEvent) (h : RegInv st) :
    RegInv (stepServer st ev) := by
  rcases h with ⟨hnd, hbound⟩
  have hdel : ∀ id, RegInv { st with clients := mapDelete st.clients id } := by
    intro id
    constructor
    · exact ((List.filter_sublist st.clients).map Prod.fst).nodup hnd
    · intro kv hkv
      exact hbound kv (List.mem_of_mem_filter hkv)
  cases ev with
  | connection ws =>
    have hfresh : ∀ kv ∈ st.clients, kv.1 ≠ mkId st.nextClientId := by
      intro kv hkv hc
      rcases hbound kv hkv with ⟨n, hn, hkv1⟩
      rw [hkv1] at hc
      exact absurd (mkId_inj hc) (by omega)
    have hany : ¬(st.clients.any
        (fun kv => decide (kv.1 = mkId st.nextClientId)) = true) := by
      intro hc
      rcases List.any_eq_true.mp hc with ⟨kv, hkv, hp⟩
      exact hfresh kv hkv (of_decide_eq_true hp)
    simp only [stepServer, mapSet]
    rw [if_neg hany]
    constructor
    · rw [List.map_append, List.nodup_append]
      refine ⟨hnd, List.nodup_singleton _, ?_⟩
      intro a ha hb
      rcases List.mem_map.mp ha with ⟨kv, hkv, rfl⟩
      have hb' : kv.1 = mkId st.nextClientId := by simpa using hb
      exact hfresh kv hkv hb'
    · intro kv hkv
      rcases List.mem_append.mp hkv with hold | hnew
      · rcases hbound kv hold with ⟨n, hn, hkv1⟩
        exact ⟨n, Nat.lt_succ_of_lt hn, hkv1⟩
      · simp only [List.mem_singleton] at hnew
        subst hnew
        exact ⟨st.nextClientId, Nat.lt_succ_self _, rfl⟩
  | closeSignal id => exact hdel id
  | errorSignal id => exact hdel id

theorem regInv_foldl : ∀ (evs : List WsEvent) (st : SState),
    RegInv st → RegInv (evs.foldl stepServer st)
  | [], _, h => h
  | ev :: evs, st, h => regInv_foldl evs _ (regInv_step st ev h)

theorem regInv_run (evs : List WsEvent) : RegInv (runServer evs) :=
  regInv_foldl evs initState regInv_init

theorem assignedIdsFrom_eq : ∀ (evs : List WsEvent) (n : Nat),
    assignedIdsFrom n evs = (List.range' n (connCount evs)).map mkId
  | [], _ => rfl
  | WsEvent.connection ws :: evs, n => by
    simp only [assignedIdsFrom, connCount]
    rw [assignedIdsFrom_eq evs (n + 1)]
    rfl
  | WsEvent.closeSignal id :: evs, n => by
    simp only [assignedIdsFrom, connCount]
    exact assignedIdsFrom_eq evs n
  | WsEvent.errorSignal id :: evs, n => by
    simp only [assignedIdsFrom, connCount]
    exact assignedIdsFrom_eq evs n

theorem assignedIds_eq (evs : List WsEvent) :
    assignedIds evs = (List.range' 0 (connCount evs)).map mkId :=
  assignedIdsFrom_eq evs 0

theorem jeq_false_of_ne {a b : JVal} (h : a ≠ b) : jeq a b = false := by
  rcases hb : jeq a b
  · rfl
  · exact absurd ((jeq_iff a b).mp hb) h

/-- `strStartsWith` agrees with the textual meaning of "begins with". -/
theorem strStartsWith_iff (s p : String) :
    strStartsWith s p = true ↔ ∃ t : String, s = p ++ t := by
  unfold strStartsWith
  rw [List.isPrefixOf_iff_prefix]
  constructor
  · rintro ⟨t, ht⟩
    refine ⟨String.mk t, strExt ?_⟩
    rw [String.data_append]
    exact ht.symm
  · rintro ⟨t, rfl⟩
    exact ⟨t.data, by rw [String.data_append]⟩

/-! ### Claim theorems -/

/-- Claim C1: for every event handed to `reportEvent`: with an empty registry
nothing is serialized and no client is sent anything (the result is fixed
before `serializeMessage` runs, even for events whose serialization would
throw); if serialization is rejected, no client is sent anything; if
serialization throws, nothing is sent either; otherwise the event is
serialized once and every currently-registered client gets one send attempt
with the same serialized text, in registry order (broadcast is atomic per
event). -/
theorem C1_broadcast_atomic (clients : Registry) (m : JVal) :
    reportEvent [] m = Except.ok ([], []) ∧
    (serializeMessage m = Except.ok none →
      reportEvent clients m = Except.ok ([], clients)) ∧
    (serializeMessage m = Except.error () → clients ≠ [] →
      reportEvent clients m = Except.error ()) ∧
    (∀ s, serializeMessage m = Except.ok (some s) →
      reportEvent clients m =
        Except.ok (clients.map (fun kv =>
          { conn := kv.2, payload := s, delivered := !kv.2.sendFails }), clients)) :=
  ⟨broadCastEvent_empty m,
   fun h => broadCastEvent_rejected clients h,
   fun h hc => broadCastEvent_throw clients h hc,
   fun _ h => broadCastEvent_ok_some clients h⟩

/-- Witness for C1: a concrete event fanned out to a two-client registry
(second client's `send` throws; both get the same payload). -/
theorem C1_broadcast_atomic_witness :
    serializeMessage (JVal.obj [("type", JVal.str "foo")]) =
      Except.ok (some "\x7b\"type\":\"foo\"\x7d") ∧
    reportEvent [("client#0", ⟨false⟩), ("client#1", ⟨true⟩)]
        (JVal.obj [("type", JVal.str "foo")]) =
      Except.ok ([⟨⟨false⟩, "\x7b\"type\":\"foo\"\x7d", true⟩,
                  ⟨⟨true⟩, "\x7b\"type\":\"foo\"\x7d", false⟩],
        [("client#0", ⟨false⟩), ("client#1", ⟨true⟩)]) :=
  ⟨rfl, (C1_broadcast_atomic [("client#0", ⟨false⟩), ("client#1", ⟨true⟩)]
    (JVal.obj [("type", JVal.str "foo")])).2.2.2 "\x7b\"type\":\"foo\"\x7d" rfl⟩

/-- Claim C2: when one registered client's `send` throws during a broadcast,
the failure is caught: the broadcast still records one attempt per registered
client (including every client after the failing one, with the same payload),
the failing client's attempt is marked undelivered, and the registry returned
by the dispatcher is exactly the input registry — the failing client is not
removed. -/
theorem C2_send_failure_isolated (pre post : List (String × WsConn))
    (id0 : String) (bad : WsConn) (m : JVal) (s : String)
    (hser : serializeMessage m = Except.ok (some s))
    (hbad : bad.sendFails = true) :
    reportEvent (pre ++ (id0, bad) :: post) m =
      Except.ok ((pre ++ (id0, bad) :: post).map (fun kv =>
        { conn := kv.2, payload := s, delivered := !kv.2.sendFails }),
        pre ++ (id0, bad) :: post) ∧
    (⟨bad, s, false⟩ : SendAttempt) ∈ (pre ++ (id0, bad) :: post).map (fun kv =>
      ({ conn := kv.2, payload := s, delivered := !kv.2.sendFails } : SendAttempt)) ∧
    (∀ kv ∈ post,
      ({ conn := kv.2, payload := s, delivered := !kv.2.sendFails } : SendAttempt) ∈
        (pre ++ (id0, bad) :: post).map (fun kv =>
          ({ conn := kv.2, payload := s, delivered := !kv.2.sendFails } : SendAttempt))) ∧
    (id0, bad) ∈ pre ++ (id0, bad) :: post := by
  refine ⟨broadCastEvent_ok_some _ hser, ?_, ?_, by simp⟩
  · exact List.mem_map.mpr ⟨(id0, bad), by simp, by simp [hbad]⟩
  · intro kv hkv
    exact List.mem_map.mpr ⟨kv, by simp [hkv], rfl⟩

/-- Witness for C2: three clients, the middle one failing; all three get an
attempt with the same payload and the registry is returned unchanged. -/
theorem C2_send_failure_isolated_witness :
    serializeMessage (JVal.obj [("type", JVal.str "foo")]) =
      Except.ok (some "\x7b\"type\":\"foo\"\x7d") ∧
    (⟨true⟩ : WsConn).sendFails = true ∧
    reportEvent [("client#0", ⟨false⟩), ("client#1", ⟨true⟩), ("client#2", ⟨false⟩)]
        (JVal.obj [("type", JVal.str "foo")]) =
      Except.ok ([⟨⟨false⟩, "\x7b\"type\":\"foo\"\x7d", true⟩,
                  ⟨⟨true⟩, "\x7b\"type\":\"foo\"\x7d", false⟩,
                  ⟨⟨false⟩, "\x7b\"type\":\"foo\"\x7d", true⟩],
        [("client#0", ⟨false⟩), ("client#1", ⟨true⟩), ("client#2", ⟨false⟩)]) :=
  ⟨rfl, rfl,
    (C2_send_failure_isolated [("client#0", ⟨false⟩)] [("client#2", ⟨false⟩)]
      "client#1" ⟨true⟩ (JVal.obj [("type", JVal.str "foo")])
      "\x7b\"type\":\"foo\"\x7d" rfl rfl).1⟩


/-- Counterexample to claim C3 as stated: an event whose `error` field is an
`Error` instance but which carries another, unencodable field is Rejected —
the substitution happens, yet `JSON.stringify` still throws on the other
field, the catch returns `null`, so "never returns Rejected" fails. -/
theorem C3_error_event_rejected_counterexample :
    isErrorVal (getField
      (JVal.obj [("error", JVal.err "Error" "boom"), ("x", JVal.cyclic)])
      "error") = true ∧
    serializeMessage
      (JVal.obj [("error", JVal.err "Error" "boom"), ("x", JVal.cyclic)]) =
      Except.ok none := ⟨rfl, rfl⟩

/-- Claim C3 (amended): for every event whose `error` field is an error-like
value, serialize never throws, and its outcome is exactly the
encode-or-reject of the event with the `error` field replaced by the
depth-bounded (fuel 3), single-line pretty-printed rendering — so any
produced text carries the substituted rendering rather than the raw error
structure; Rejected is still possible when another field is unencodable. -/
theorem C3_error_event_substituted (m : JVal)
    (h : isErrorVal (getField m "error") = true) :
    serializeMessage m =
      Except.ok (stringifyCaught (setField m "error"
        (JVal.str (prettyFormat (getField m "error"))))) ∧
    noNL (prettyFormat (getField m "error")) ∧
    prettyFormat (getField m "error") = prettyFormatAux 3 (getField m "error") :=
  ⟨serializeMessage_error_branch h, prettyFormat_noNL _, rfl⟩

/-- Witness for C3 (amended) at a concrete error event. -/
theorem C3_error_event_substituted_witness :
    isErrorVal (getField
      (JVal.obj [("type", JVal.str "bundling_error"),
        ("error", JVal.err "TypeError" "x is bad")]) "error") = true ∧
    (serializeMessage
        (JVal.obj [("type", JVal.str "bundling_error"),
          ("error", JVal.err "TypeError" "x is bad")]) =
      Except.ok (stringifyCaught (setField
        (JVal.obj [("type", JVal.str "bundling_error"),
          ("error", JVal.err "TypeError" "x is bad")]) "error"
        (JVal.str (prettyFormat (getField
          (JVal.obj [("type", JVal.str "bundling_error"),
            ("error", JVal.err "TypeError" "x is bad")]) "error"))))) ∧
    noNL (prettyFormat (getField
      (JVal.obj [("type", JVal.str "bundling_error"),
        ("error", JVal.err "TypeError" "x is bad")]) "error")) ∧
    prettyFormat (getField
      (JVal.obj [("type", JVal.str "bundling_error"),
        ("error", JVal.err "TypeError" "x is bad")]) "error") =
      prettyFormatAux 3 (getField
        (JVal.obj [("type", JVal.str "bundling_error"),
          ("error", JVal.err "TypeError" "x is bad")]) "error")) :=
  ⟨rfl, C3_error_event_substituted
    (JVal.obj [("type", JVal.str "bundling_error"),
      ("error", JVal.err "TypeError" "x is bad")]) rfl⟩

/-- Claim C4: a `client_log` event (whose `error` is not error-like) with a
`data` array mixing strings and non-strings is serialized as the event with
`data` rewritten elementwise — same length, strings unchanged, every
non-string replaced by the depth-bounded single-line rendering. -/
theorem C4_client_log_data_rewrite (m : JVal) (items : List JVal)
    (herr : isErrorVal (getField m "error") = false)
    (htype : getField m "type" = JVal.str "client_log")
    (hdata : getField m "data" = JVal.arr items) :
    serializeMessage m =
      Except.ok (stringifyCaught
        (setField m "data" (JVal.arr (items.map logItem)))) ∧
    (items.map logItem).length = items.length ∧
    (∀ s, logItem (JVal.str s) = JVal.str s) ∧
    (∀ v, isStrVal v = false →
      logItem v = JVal.str (prettyFormat v) ∧ noNL (prettyFormat v)) := by
  refine ⟨serializeMessage_client_log_branch herr htype hdata, by simp,
    fun s => rfl, ?_⟩
  intro v hv
  refine ⟨?_, prettyFormat_noNL v⟩
  cases v <;> first
    | rfl
    | exact absurd hv (by simp [isStrVal])

/-- Witness for C4 at a concrete mixed `client_log` event. -/
theorem C4_client_log_data_rewrite_witness :
    isErrorVal (getField
      (JVal.obj [("type", JVal.str "client_log"),
        ("data", JVal.arr [JVal.str "hi", JVal.num 3])]) "error") = false ∧
    getField (JVal.obj [("type", JVal.str "client_log"),
      ("data", JVal.arr [JVal.str "hi", JVal.num 3])]) "type" =
      JVal.str "client_log" ∧
    getField (JVal.obj [("type", JVal.str "client_log"),
      ("data", JVal.arr [JVal.str "hi", JVal.num 3])]) "data" =
      JVal.arr [JVal.str "hi", JVal.num 3] ∧
    (serializeMessage (JVal.obj [("type", JVal.str "client_log"),
        ("data", JVal.arr [JVal.str "hi", JVal.num 3])]) =
      Except.ok (stringifyCaught
        (setField (JVal.obj [("type", JVal.str "client_log"),
          ("data", JVal.arr [JVal.str "hi", JVal.num 3])]) "data"
          (JVal.arr ([JVal.str "hi", JVal.num 3].map logItem)))) ∧
    ([JVal.str "hi", JVal.num 3].map logItem).length =
      ([JVal.str "hi", JVal.num 3] : List JVal).length ∧
    (∀ s, logItem (JVal.str s) = JVal.str s) ∧
    (∀ v, isStrVal v = false →
      logItem v = JVal.str (prettyFormat v) ∧ noNL (prettyFormat v))) :=
  ⟨rfl, rfl, rfl, C4_client_log_data_rewrite
    (JVal.obj [("type", JVal.str "client_log"),
      ("data", JVal.arr [JVal.str "hi", JVal.num 3])])
    [JVal.str "hi", JVal.num 3] rfl rfl rfl⟩

/-- Claim C5: `parseMessage` is Rejected exactly when decoding throws or the
decoded value's `version` field is not strictly 2; on success it returns the
decoded value unchanged, with no schema validation beyond the version
check. -/
theorem C5_parse_version_gate (data : String) :
    (parseMessage data = none ↔
      (jsonParse data = none ∨ ∃ m, jsonParse data = some m ∧
        getField m "version" ≠ JVal.num PROTOCOL_VERSION)) ∧
    (∀ m, parseMessage data = some m → jsonParse data = some m) ∧
    (∀ m, jsonParse data = some m →
      getField m "version" = JVal.num PROTOCOL_VERSION →
      parseMessage data = some m) := by
  unfold parseMessage
  rcases hj : jsonParse data with _ | m
  · refine ⟨⟨fun _ => Or.inl rfl, fun _ => rfl⟩, ?_, ?_⟩
    · intro m hm
      exact absurd hm (by simp)
    · intro m hm
      exact absurd hm (by simp)
  · dsimp only
    by_cases hv : getField m "version" = JVal.num PROTOCOL_VERSION
    · rw [(jeq_iff _ _).mpr hv]
      refine ⟨⟨fun h => Option.noConfusion h, ?_⟩, fun _ h => h, fun _ h _ => h⟩
      rintro (h | ⟨m2, hm2, hv2⟩)
      · exact Option.noConfusion h
      · exact absurd (Option.some.inj hm2 ▸ hv) hv2
    · rw [jeq_false_of_ne hv]
      refine ⟨⟨fun _ => Or.inr ⟨m, rfl, hv⟩, fun _ => rfl⟩, ?_, ?_⟩
      · intro m2 hm2
        exact absurd hm2 (by simp)
      · intro m2 hm2 hv2
        exact absurd (Option.some.inj hm2 ▸ hv2) hv

/-- Witness for C5: the scenario envelope decodes with version 2 and is
returned unchanged. -/
theorem C5_parse_version_gate_witness :
    jsonParse "\x7b\"version\":2,\"type\":\"command\",\"command\":\"reload\"\x7d" =
      some (JVal.obj [("version", JVal.num 2), ("type", JVal.str "command"),
        ("command", JVal.str "reload")]) ∧
    getField (JVal.obj [("version", JVal.num 2), ("type", JVal.str "command"),
      ("command", JVal.str "reload")]) "version" = JVal.num PROTOCOL_VERSION ∧
    parseMessage "\x7b\"version\":2,\"type\":\"command\",\"command\":\"reload\"\x7d" =
      some (JVal.obj [("version", JVal.num 2), ("type", JVal.str "command"),
        ("command", JVal.str "reload")]) :=
  ⟨rfl, rfl,
    (C5_parse_version_gate
      "\x7b\"version\":2,\"type\":\"command\",\"command\":\"reload\"\x7d").2.2
      (JVal.obj [("version", JVal.num 2), ("type", JVal.str "command"),
        ("command", JVal.str "reload")]) rfl rfl⟩

/-- Claim C6: an inbound text whose decoded `version` differs from 2 never
reaches the Command Relay: the outbound channel's `broadcast` is not invoked
for that message, whatever the channel would do. -/
theorem C6_version_mismatch_not_relayed (bcast : JVal → JVal → Except Unit Unit)
    (data : String) (m : JVal) (hdec : jsonParse data = some m)
    (hver : getField m "version" ≠ JVal.num PROTOCOL_VERSION) :
    (onmessage bcast data).calls = [] := by
  have hp : parseMessage data = none := by
    unfold parseMessage
    rw [hdec]
    dsimp only
    rw [jeq_false_of_ne hver]
    rfl
  unfold onmessage
  rw [hp]

/-- Witness for C6: the version-1 scenario message triggers no outbound
broadcast. -/
theorem C6_version_mismatch_not_relayed_witness :
    jsonParse "\x7b\"version\":1,\"type\":\"command\",\"command\":\"reload\"\x7d" =
      some (JVal.obj [("version", JVal.num 1), ("type", JVal.str "command"),
        ("command", JVal.str "reload")]) ∧
    getField (JVal.obj [("version", JVal.num 1), ("type", JVal.str "command"),
      ("command", JVal.str "reload")]) "version" ≠ JVal.num PROTOCOL_VERSION ∧
    (onmessage (fun _ _ => Except.ok ())
      "\x7b\"version\":1,\"type\":\"command\",\"command\":\"reload\"\x7d").calls = [] :=
  ⟨rfl, by decide,
    C6_version_mismatch_not_relayed (fun _ _ => Except.ok ())
      "\x7b\"version\":1,\"type\":\"command\",\"command\":\"reload\"\x7d"
      (JVal.obj [("version", JVal.num 1), ("type", JVal.str "command"),
        ("command", JVal.str "reload")]) rfl (by decide)⟩

/-- Claim C7: a parsed envelope whose `type` is `"command"` triggers exactly
one `messageSocket.broadcast(command, params)` invocation; even when the
relay call throws, the exception is caught and logged and none escapes the
handler; an envelope of any other type is dropped with no invocation and no
escaping exception. -/
theorem C7_command_relay (bcast : JVal → JVal → Except Unit Unit)
    (data : String) (m : JVal) (hp : parseMessage data = some m) :
    (getField m "type" = JVal.str "command" →
      (onmessage bcast data).calls =
        [(getField m "command", getField m "params")] ∧
      (onmessage bcast data).uncaughtError = false) ∧
    (getField m "type" ≠ JVal.str "command" →
      (onmessage bcast data).calls = [] ∧
      (onmessage bcast data).uncaughtError = false) := by
  unfold onmessage
  rw [hp]
  dsimp only
  constructor
  · intro ht
    rw [(jeq_iff _ _).mpr ht]
    cases hb : bcast (getField m "command") (getField m "params") <;>
      exact ⟨rfl, rfl⟩
  · intro ht
    rw [jeq_false_of_ne ht]
    exact ⟨rfl, rfl⟩

/-- Witness for C7: the scenario command envelope, relayed through an
outbound channel that throws: exactly one `broadcast("reload", undefined)`
call, and the exception does not escape the handler. -/
theorem C7_command_relay_witness :
    parseMessage "\x7b\"version\":2,\"type\":\"command\",\"command\":\"reload\"\x7d" =
      some (JVal.obj [("version", JVal.num 2), ("type", JVal.str "command"),
        ("command", JVal.str "reload")]) ∧
    (onmessage (fun _ _ => Except.error ())
      "\x7b\"version\":2,\"type\":\"command\",\"command\":\"reload\"\x7d").calls =
      [(JVal.str "reload", JVal.undef)] ∧
    (onmessage (fun _ _ => Except.error ())
      "\x7b\"version\":2,\"type\":\"command\",\"command\":\"reload\"\x7d").uncaughtError =
      false :=
  ⟨rfl,
    (C7_command_relay (fun _ _ => Except.error ())
      "\x7b\"version\":2,\"type\":\"command\",\"command\":\"reload\"\x7d"
      (JVal.obj [("version", JVal.num 2), ("type", JVal.str "command"),
        ("command", JVal.str "reload")]) rfl).1 rfl⟩

/-- Counterexample to claim C8 as stated: an empty (present) Origin header
value matches neither `http://localhost:` nor `file:` and is not absent, yet
`verifyClient` accepts it — the empty string is falsy, so `!origin` already
short-circuits to acceptance. -/
theorem C8_empty_origin_counterexample :
    verifyClient (some "") = true ∧
    strStartsWith "" "http://localhost:" = false ∧
    strStartsWith "" "file:" = false := ⟨rfl, rfl, rfl⟩

/-- Claim C8 (amended): `verifyClient` accepts exactly when the Origin header
is absent, empty, or begins with `http://localhost:` or `file:`; every other
value is rejected. -/
theorem C8_origin_filter (o : Option String) :
    verifyClient o = true ↔
      (o = none ∨ ∃ s, o = some s ∧
        (s = "" ∨ strStartsWith s "http://localhost:" = true ∨
          strStartsWith s "file:" = true)) := by
  cases o with
  | none => simp [verifyClient]
  | some s =>
    simp only [verifyClient, Bool.or_eq_true, decide_eq_true_eq,
      Option.some.injEq, reduceCtorEq, false_or]
    constructor
    · rintro ((h | h) | h)
      · exact ⟨s, rfl, Or.inl h⟩
      · exact ⟨s, rfl, Or.inr (Or.inl h)⟩
      · exact ⟨s, rfl, Or.inr (Or.inr h)⟩
    · rintro ⟨t, ht, (h | h | h)⟩ <;> rw [ht]
      · exact Or.inl (Or.inl h)
      · exact Or.inl (Or.inr h)
      · exact Or.inr h

/-- Witness for C8 (amended): the spec's three example headers. -/
theorem C8_origin_filter_witness :
    verifyClient (some "http://localhost:19000") = true ∧
    verifyClient (some "https://evil.example.com") = false ∧
    verifyClient none = true := by
  refine ⟨(C8_origin_filter (some "http://localhost:19000")).mpr
      (Or.inr ⟨_, rfl, Or.inr (Or.inl (by decide))⟩), ?_,
    (C8_origin_filter none).mpr (Or.inl rfl)⟩
  rcases hb : verifyClient (some "https://evil.example.com")
  · rfl
  · rcases (C8_origin_filter (some "https://evil.example.com")).mp hb with
      h | ⟨s, hs, h⟩
    · exact Option.noConfusion h
    · rw [← Option.some.inj hs] at h
      rcases h with h | h | h <;> exact absurd h (by decide)

/-- Claim C9: at every reachable lifecycle state the registry holds no two
entries with the same id; every registered id is `client#<n>` with `n` below
the counter; and over the whole signal sequence the assigned ids are exactly
`client#0, client#1, ...` in order — monotonically increasing, pairwise
distinct, never reused after removal. -/
theorem C9_registry_ids (evs : List WsEvent) :
    ((runServer evs).clients.map Prod.fst).Nodup ∧
    (∀ kv ∈ (runServer evs).clients,
      ∃ n, n < (runServer evs).nextClientId ∧ kv.1 = mkId n) ∧
    assignedIds evs = (List.range' 0 (connCount evs)).map mkId ∧
    (assignedIds evs).Nodup ∧
    List.Pairwise (fun a b => ∃ i j, a = mkId i ∧ b = mkId j ∧ i < j)
      (assignedIds evs) := by
  refine ⟨(regInv_run evs).1, (regInv_run evs).2, assignedIds_eq evs, ?_, ?_⟩
  · rw [assignedIds_eq]
    exact List.Nodup.map (fun a b hab => mkId_inj hab) (List.nodup_range' 0 _)
  · rw [assignedIds_eq, List.pairwise_map]
    exact (List.pairwise_lt_range' 0 _).imp (fun h => ⟨_, _, rfl, rfl, h⟩)

/-- Claim C10: `serializeMessage` is total only when a `client_log` event's
`data` is an array: on a `client_log` event with absent `data`, and on one
with a non-array `data`, the `message.data.map` call throws instead of
returning a Rejected value, and with a non-empty registry the exception
escapes `reportEvent` uncaught. -/
theorem C10_client_log_map_throws :
    serializeMessage (JVal.obj [("type", JVal.str "client_log")]) =
      Except.error () ∧
    serializeMessage (JVal.obj [("type", JVal.str "client_log"),
      ("data", JVal.num 5)]) = Except.error () ∧
    reportEvent [("client#0", ⟨false⟩)]
      (JVal.obj [("type", JVal.str "client_log")]) = Except.error () :=
  ⟨rfl, rfl, rfl⟩
